import Mathlib

/-!
Verification of the gigaverse-bot opponent pattern-detection engine.

The definitions below are shallow embeddings of the Python analysis code:
* `RPS.detect_pattern`   — `RobustDetector.detect_pattern` (test_robust_detection.py)
* `RPS.detect_markov_1`, `RPS.detect_markov_3` — test_markov_orders.py
* `RPS.get_distribution` — analyze_enemy_behavior.py / analyze_enemy_patterns.py
* reactive-rate functions — deeper_reactive_analysis.py main loop
* `RPS.reactionPatterns`, `RPS.analyze_enemy_adaptation` — analyze_enemy_behavior.py

Python floats are modelled by exact rationals; dictionaries of move counts by
explicit per-move counting functions.  Python's `max` over a dict iterates
keys in insertion order (order of first appearance) and keeps the first
strictly-maximal element; this is modelled by maximizing the count with ties
broken towards the smaller index of first occurrence.
-/

namespace RPS

/-- The three-valued move domain. -/
inductive Move
  | rock
  | paper
  | scissor
deriving DecidableEq, Repr

/-- Python `{'rock': 'paper', 'paper': 'scissor', 'scissor': 'rock'}` — the move that
beats the argument. -/
def counterMap : Move → Move
  | Move.rock => Move.paper
  | Move.paper => Move.scissor
  | Move.scissor => Move.rock

/-- Python `{'rock': 'scissor', 'paper': 'rock', 'scissor': 'paper'}` — the move that
loses to the argument. -/
def oppositeMap : Move → Move
  | Move.rock => Move.scissor
  | Move.paper => Move.rock
  | Move.scissor => Move.paper

/-- One battle record as consumed by `RobustDetector.detect_pattern`:
a dict `{'our_move': ..., 'enemy_move': ...}`. -/
structure Battle where
  our_move : Move
  enemy_move : Move
deriving DecidableEq, Repr

/-- The result dict returned by `RobustDetector.detect_pattern`
(`type`/`move`/`rate`/`confidence`/`detected_at` fields). -/
inductive Detection
  | bias (move : Move) (confidence : ℚ) (detected_at : ℕ)
  | counter (rate : ℚ) (confidence : ℚ) (detected_at : ℕ)
  | copier (rate : ℚ) (confidence : ℚ) (detected_at : ℕ)
deriving DecidableEq, Repr

/-- Python `counts[m]`: occurrences of enemy move `m` in the battle list. -/
def countMove (battles : List Battle) (m : Move) : ℕ :=
  (battles.filter (fun b => b.enemy_move = m)).length

/-- Index of the first battle whose enemy move is `m` (list length if none):
position of `m` in the insertion order of the Python `counts` dict. -/
def firstOcc (battles : List Battle) (m : Move) : ℕ :=
  battles.findIdx (fun b => b.enemy_move = m)

/-- One comparison step of Python's `max(counts.items(), key=...)`: the move
with the larger count wins; on equal counts the earlier-inserted key wins. -/
def domBetter (battles : List Battle) (a b : Move) : Move :=
  if countMove battles a < countMove battles b then b
  else if countMove battles b < countMove battles a then a
  else if firstOcc battles a ≤ firstOcc battles b then a else b

/-- Python `dominant = max(counts.items(), key=lambda x: x[1])[0]`. -/
def dominantMove (battles : List Battle) : Move :=
  domBetter battles (domBetter battles Move.rock Move.paper) Move.scissor

/-- Python `counts[dominant] / total`. -/
def dominantShare (battles : List Battle) : ℚ :=
  (countMove battles (dominantMove battles) : ℚ) / battles.length

/-- Python `chi_square = sum((counts[m] - expected)**2 / expected for m in moves)`
with `expected = total / 3`. -/
def chiSquare (battles : List Battle) : ℚ :=
  (((countMove battles Move.rock : ℚ) - (battles.length : ℚ) / 3) ^ 2
      + ((countMove battles Move.paper : ℚ) - (battles.length : ℚ) / 3) ^ 2
      + ((countMove battles Move.scissor : ℚ) - (battles.length : ℚ) / 3) ^ 2)
    / ((battles.length : ℚ) / 3)

/-- Adjacent battle pairs `(battles[i-1], battles[i])`. -/
def transPairs (battles : List Battle) : List (Battle × Battle) :=
  battles.zip battles.tail

/-- Python `counter_count`: transitions with
`battles[i]['enemy_move'] == counter_map[battles[i-1]['our_move']]`. -/
def counterTransCount (battles : List Battle) : ℕ :=
  ((transPairs battles).filter
    (fun p => p.2.enemy_move = counterMap p.1.our_move)).length

/-- Python `copy_count`: transitions with
`battles[i]['enemy_move'] == battles[i-1]['our_move']`. -/
def copyTransCount (battles : List Battle) : ℕ :=
  ((transPairs battles).filter (fun p => p.2.enemy_move = p.1.our_move)).length

/-- One-sided exact binomial tail `P[X ≥ k]` for `X ~ Binomial(m, 1/3)`:
the p-value computed by `stats.binom_test(k, m, 1/3, alternative='greater')`. -/
def binomTailP (k m : ℕ) : ℚ :=
  Finset.sum (Finset.Icc k m)
    (fun i => (m.choose i : ℚ) * (1 / 3) ^ i * (2 / 3) ^ (m - i))

/-- Python `RobustDetector.detect_pattern` (test_robust_detection.py, lines 19-83):
minimum 15 samples; chi-square bias gate with critical value 5.991 and
effect-size floor 0.45, confidence `min(0.9, share)`; from 20 samples on, a
one-sided binomial gate at level 0.05 for counter then copy transitions,
confidence 0.7. -/
def detect_pattern (battles : List Battle) : Option Detection :=
  if battles.length < 15 then none
  else if 5991 / 1000 < chiSquare battles ∧ 45 / 100 < dominantShare battles then
    some (Detection.bias (dominantMove battles)
      (min (9 / 10) (dominantShare battles)) battles.length)
  else if battles.length < 20 then none
  else if ((battles.length - 1 : ℕ) : ℚ) / 3 < (counterTransCount battles : ℚ)
      ∧ binomTailP (counterTransCount battles) (battles.length - 1) < 1 / 20 then
    some (Detection.counter
      ((counterTransCount battles : ℚ) / ((battles.length - 1 : ℕ) : ℚ))
      (7 / 10) battles.length)
  else if ((battles.length - 1 : ℕ) : ℚ) / 3 < (copyTransCount battles : ℚ)
      ∧ binomTailP (copyTransCount battles) (battles.length - 1) < 1 / 20 then
    some (Detection.copier
      ((copyTransCount battles : ℚ) / ((battles.length - 1 : ℕ) : ℚ))
      (7 / 10) battles.length)
  else none

/-! ### Variable-order Markov detectors (test_markov_orders.py) -/

/-- Adjacent move pairs `(battles[i-1]['move'], battles[i]['move'])`. -/
def mTransitions (moves : List Move) : List (Move × Move) :=
  moves.zip moves.tail

/-- Python `transitions[key]`: occurrences of the transition `t`. -/
def transCount (moves : List Move) (t : Move × Move) : ℕ :=
  ((mTransitions moves).filter (fun u => u = t)).length

/-- Index of the first occurrence of transition `t` (the insertion position of
its key in the Python `transitions` dict). -/
def tFirstOcc (moves : List Move) (t : Move × Move) : ℕ :=
  (mTransitions moves).findIdx (fun u => u = t)

/-- One comparison step of `max(transitions.items(), key=lambda x: x[1])`:
larger count wins, ties go to the earlier-inserted key. -/
def tBetter (moves : List Move) (a b : Move × Move) : Move × Move :=
  if transCount moves a < transCount moves b then b
  else if transCount moves b < transCount moves a then a
  else if tFirstOcc moves a ≤ tFirstOcc moves b then a else b

/-- All nine possible order-1 transitions. -/
def allTrans : List (Move × Move) :=
  [(Move.rock, Move.rock), (Move.rock, Move.paper), (Move.rock, Move.scissor),
   (Move.paper, Move.rock), (Move.paper, Move.paper), (Move.paper, Move.scissor),
   (Move.scissor, Move.rock), (Move.scissor, Move.paper), (Move.scissor, Move.scissor)]

/-- Python `best_transition = max(transitions.items(), key=lambda x: x[1])`. -/
def bestTransition (moves : List Move) : Move × Move :=
  allTrans.foldl (tBetter moves) (Move.rock, Move.rock)

/-- Total occurrences of `t.1` as the previous move: the support of the
order-1 context of `t` (the quantity the spec's minimum-support rule is
about; `detect_markov_1` never computes it). -/
def ctx1Total (moves : List Move) (m : Move) : ℕ :=
  ((mTransitions moves).filter (fun t => t.1 = m)).length

/-- Python `detect_markov_1` (test_markov_orders.py, lines 47-66): needs 10 moves,
reports the most frequent transition when its share of all transitions
exceeds 0.4 (returning transition, its count and the total, the data the
result string is formatted from). -/
def detect_markov_1 (moves : List Move) : Option ((Move × Move) × ℕ × ℕ) :=
  if moves.length < 10 then none
  else if 2 / 5 < (transCount moves (bestTransition moves) : ℚ)
      / ((mTransitions moves).length : ℚ) then
    some (bestTransition moves, transCount moves (bestTransition moves),
      (mTransitions moves).length)
  else none

/-- An order-3 context: the three preceding moves. -/
abbrev Ctx3 := Move × Move × Move

/-- The 4-grams `((moves[i-3], moves[i-2], moves[i-1]), moves[i])`. -/
def grams3 (moves : List Move) : List (Ctx3 × Move) :=
  (moves.zip (moves.tail.zip (moves.tail.tail.zip moves.tail.tail.tail))).map
    (fun x => ((x.1, x.2.1, x.2.2.1), x.2.2.2))

/-- Python `patterns[key]`: occurrences of the 4-gram `p`. -/
def patCount (g : List (Ctx3 × Move)) (p : Ctx3 × Move) : ℕ :=
  (g.filter (fun q => q = p)).length

/-- Python `context_total`: occurrences of the context `c` (the sum over all keys
starting with `c`; the three move names share no prefixes, so the string
prefix test of the source matches exactly the keys with context `c`). -/
def ctxTotal (g : List (Ctx3 × Move)) (c : Ctx3) : ℕ :=
  (g.filter (fun q => q.1 = c)).length

/-- The distinct 4-grams in order of first occurrence: the key order of the
Python `patterns` dict. -/
def firstDedupAux : List (Ctx3 × Move) → List (Ctx3 × Move) → List (Ctx3 × Move)
  | acc, [] => acc.reverse
  | acc, x :: xs =>
      if x ∈ acc then firstDedupAux acc xs else firstDedupAux (x :: acc) xs

/-- Python `patterns.items()` iteration order. -/
def patKeys (g : List (Ctx3 × Move)) : List (Ctx3 × Move) :=
  firstDedupAux [] g

/-- One iteration of the best-pattern loop: patterns below the minimum
support 5 are skipped; otherwise a strictly larger ratio replaces the best. -/
def m3Step (g : List (Ctx3 × Move)) (st : ℚ × Option (Ctx3 × Move))
    (p : Ctx3 × Move) : ℚ × Option (Ctx3 × Move) :=
  if 5 ≤ ctxTotal g p.1 then
    if st.1 < (patCount g p : ℚ) / (ctxTotal g p.1 : ℚ) then
      ((patCount g p : ℚ) / (ctxTotal g p.1 : ℚ), some p)
    else st
  else st

/-- Python `(best_ratio, best_pattern)` after the loop (initial state `(0, None)`). -/
def m3Best (g : List (Ctx3 × Move)) : ℚ × Option (Ctx3 × Move) :=
  (patKeys g).foldl (m3Step g) (0, none)

/-- Python `detect_markov_3` (test_markov_orders.py, lines 68-98): needs 30 moves;
among 4-grams whose context has at least 5 occurrences picks the highest
conditional ratio and reports it if it exceeds 0.6. -/
def detect_markov_3 (moves : List Move) : Option ((Ctx3 × Move) × ℚ) :=
  if moves.length < 30 then none
  else if 3 / 5 < (m3Best (grams3 moves)).1 then
    (m3Best (grams3 moves)).2.map (fun p => (p, (m3Best (grams3 moves)).1))
  else none

/-! ### Distribution analyzer (analyze_enemy_behavior.py / analyze_enemy_patterns.py)

The source indexes moves by raw strings, so the embedding keeps the string
domain; tokens outside {rock, paper, scissor} are representable, as required
by the error-handling claims. -/

def rockTok : String := "rock"

def paperTok : String := "paper"

def scissorTok : String := "scissor"

def lizardTok : String := "lizard"

/-- The dict returned by `get_distribution`. -/
structure MoveDist where
  rock : ℚ
  paper : ℚ
  scissor : ℚ
deriving DecidableEq

/-- Python `counter.get(tok, 0)`: occurrences of the token. -/
def countTok (moves : List String) (tok : String) : ℕ :=
  (moves.filter (fun m => m = tok)).length

/-- Python `get_distribution` (analyze_enemy_behavior.py, lines 20-31): empty input
yields the fixed dict `{0.333, 0.333, 0.334}`; otherwise each of the three
valid tokens is counted against the total length. -/
def get_distribution (moves : List String) : MoveDist :=
  if moves = [] then ⟨333 / 1000, 333 / 1000, 334 / 1000⟩
  else
    ⟨(countTok moves rockTok : ℚ) / (moves.length : ℚ),
     (countTok moves paperTok : ℚ) / (moves.length : ℚ),
     (countTok moves scissorTok : ℚ) / (moves.length : ℚ)⟩

/-- Python `get_distribution` (analyze_enemy_patterns.py, lines 20-31): identical
except the empty-input dict is `{0.33, 0.33, 0.34}`. -/
def get_distribution_pat (moves : List String) : MoveDist :=
  if moves = [] then ⟨33 / 100, 33 / 100, 34 / 100⟩
  else
    ⟨(countTok moves rockTok : ℚ) / (moves.length : ℚ),
     (countTok moves paperTok : ℚ) / (moves.length : ℚ),
     (countTok moves scissorTok : ℚ) / (moves.length : ℚ)⟩

/-! ### Reactive transition rates (deeper_reactive_analysis.py, main loop) -/

/-- Python `result` column values. -/
inductive TurnResult
  | win
  | loss
  | tie
deriving DecidableEq

/-- One `(turn, player_move, enemy_move, result)` row (the `turn` column is
never read by the analysis loops and is omitted). -/
structure TurnRec where
  player_move : Move
  enemy_move : Move
  result : TurnResult
deriving DecidableEq

/-- Adjacent row pairs `(battles[i-1], battles[i])`. -/
def rTrans (battles : List TurnRec) : List (TurnRec × TurnRec) :=
  battles.zip battles.tail

/-- Python `counter_count` (first branch of the `if`/`elif` chain, lines 76-81):
enemy's current move beats our previous move. -/
def counterCnt (battles : List TurnRec) : ℕ :=
  ((rTrans battles).filter
    (fun t => t.2.enemy_move = counterMap t.1.player_move)).length

/-- Python `copy_count` (`elif` branch): enemy copies our previous move and the
counter branch did not fire. -/
def copyCnt (battles : List TurnRec) : ℕ :=
  ((rTrans battles).filter
    (fun t => ¬(t.2.enemy_move = counterMap t.1.player_move)
      ∧ t.2.enemy_move = t.1.player_move)).length

/-- Python `opposite_count` (second `elif` branch): enemy plays the move losing to
our previous move and no earlier branch fired. -/
def oppositeCnt (battles : List TurnRec) : ℕ :=
  ((rTrans battles).filter
    (fun t => ¬(t.2.enemy_move = counterMap t.1.player_move)
      ∧ ¬(t.2.enemy_move = t.1.player_move)
      ∧ t.2.enemy_move = oppositeMap t.1.player_move)).length

/-- Python `total_transitions = len(battles) - 1`. -/
def totalTransitions (battles : List TurnRec) : ℕ :=
  battles.length - 1

/-- Python `counter_rate = counter_count / total_transitions if ... > 0 else 0`. -/
def counter_rate (battles : List TurnRec) : ℚ :=
  if 0 < totalTransitions battles then
    (counterCnt battles : ℚ) / (totalTransitions battles : ℚ)
  else 0

/-- Python `copy_rate` with the same zero-denominator guard. -/
def copy_rate (battles : List TurnRec) : ℚ :=
  if 0 < totalTransitions battles then
    (copyCnt battles : ℚ) / (totalTransitions battles : ℚ)
  else 0

/-- Python `opposite_rate` with the same zero-denominator guard. -/
def opposite_rate (battles : List TurnRec) : ℚ :=
  if 0 < totalTransitions battles then
    (oppositeCnt battles : ℚ) / (totalTransitions battles : ℚ)
  else 0

/-- Transitions whose previous row's result is `loss`. -/
def lossTrans (battles : List TurnRec) : List (TurnRec × TurnRec) :=
  (rTrans battles).filter (fun t => t.1.result = TurnResult.loss)

/-- Transitions whose previous row's result is `win`. -/
def winTrans (battles : List TurnRec) : List (TurnRec × TurnRec) :=
  (rTrans battles).filter (fun t => t.1.result = TurnResult.win)

/-- Python `total_losses`. -/
def totalLosses (battles : List TurnRec) : ℕ :=
  (lossTrans battles).length

/-- Python `total_wins`. -/
def totalWins (battles : List TurnRec) : ℕ :=
  (winTrans battles).length

/-- Python `repeat_after_loss`: enemy repeats its own previous move after a `loss`
row. -/
def repeatAfterLoss (battles : List TurnRec) : ℕ :=
  ((lossTrans battles).filter (fun t => t.2.enemy_move = t.1.enemy_move)).length

/-- Python `switch_after_loss` (the `else` of the repeat test). -/
def switchAfterLoss (battles : List TurnRec) : ℕ :=
  ((lossTrans battles).filter (fun t => ¬(t.2.enemy_move = t.1.enemy_move))).length

/-- Python `repeat_after_win`. -/
def repeatAfterWin (battles : List TurnRec) : ℕ :=
  ((winTrans battles).filter (fun t => t.2.enemy_move = t.1.enemy_move)).length

/-- Python `switch_after_win`. -/
def switchAfterWin (battles : List TurnRec) : ℕ :=
  ((winTrans battles).filter (fun t => ¬(t.2.enemy_move = t.1.enemy_move))).length

/-- Python `repeat_loss_rate = repeat_after_loss / total_losses if total_losses > 0
else 0` (deeper_reactive_analysis.py, line 109). -/
def repeat_loss_rate (battles : List TurnRec) : ℚ :=
  if 0 < totalLosses battles then
    (repeatAfterLoss battles : ℚ) / (totalLosses battles : ℚ)
  else 0

/-- Python `switch_loss_rate` (line 110). -/
def switch_loss_rate (battles : List TurnRec) : ℚ :=
  if 0 < totalLosses battles then
    (switchAfterLoss battles : ℚ) / (totalLosses battles : ℚ)
  else 0

/-- Python `repeat_win_rate` (line 111). -/
def repeat_win_rate (battles : List TurnRec) : ℚ :=
  if 0 < totalWins battles then
    (repeatAfterWin battles : ℚ) / (totalWins battles : ℚ)
  else 0

/-- Python `switch_win_rate` (line 112). -/
def switch_win_rate (battles : List TurnRec) : ℚ :=
  if 0 < totalWins battles then
    (switchAfterWin battles : ℚ) / (totalWins battles : ℚ)
  else 0

/-! ### Reaction-pattern detection and the adaptation classifier
(analyze_enemy_behavior.py) -/

/-- Python `counter_reactions` (independent `if`, lines 48-51). -/
def counterReactions (battles : List TurnRec) : ℕ :=
  ((rTrans battles).filter
    (fun t => t.2.enemy_move = counterMap t.1.player_move)).length

/-- Python `copy_reactions` (independent `if`, lines 53-55). -/
def copyReactions (battles : List TurnRec) : ℕ :=
  ((rTrans battles).filter (fun t => t.2.enemy_move = t.1.player_move)).length

/-- Python `reaction_rate = counter_reactions / (len(battles) - 1)`. -/
def reactionRate (battles : List TurnRec) : ℚ :=
  (counterReactions battles : ℚ) / ((battles.length - 1 : ℕ) : ℚ)

/-- Python `copy_rate` of `detect_reaction_patterns`. -/
def copyReactionRate (battles : List TurnRec) : ℚ :=
  (copyReactions battles : ℚ) / ((battles.length - 1 : ℕ) : ℚ)

/-- Python `loss_reactions['switches_to_counter']`: after an enemy loss the enemy
plays the counter of its own previous move. -/
def lossSwitchCounterCnt (battles : List TurnRec) : ℕ :=
  ((lossTrans battles).filter
    (fun t => t.2.enemy_move = counterMap t.1.enemy_move)).length

/-- Python `loss_reactions['repeats_move']` (`elif`). -/
def lossRepeatCnt (battles : List TurnRec) : ℕ :=
  ((lossTrans battles).filter
    (fun t => ¬(t.2.enemy_move = counterMap t.1.enemy_move)
      ∧ t.2.enemy_move = t.1.enemy_move)).length

/-- Python `loss_reactions['random_switch']` (`else`). -/
def lossRandomCnt (battles : List TurnRec) : ℕ :=
  ((lossTrans battles).filter
    (fun t => ¬(t.2.enemy_move = counterMap t.1.enemy_move)
      ∧ ¬(t.2.enemy_move = t.1.enemy_move))).length

/-- Entries of the `patterns` list built by `detect_reaction_patterns`; the
source stores formatted strings, embedded here as a tagged variant carrying
the rate that the string is formatted from. -/
inductive RPat
  | counters (rate : ℚ)
  | copies (rate : ℚ)
  | lossSwitchCounter (rate : ℚ)
  | lossRepeat (rate : ℚ)
  | lossRandom (rate : ℚ)
deriving DecidableEq

/-- Python `detect_reaction_patterns` (analyze_enemy_behavior.py, lines 33-93),
restricted to its `patterns` list: fewer than 10 battles yields no patterns;
counter/copy entries appear when their rate exceeds 0.4; after-loss entries
appear only when `total_losses > 5` and the kind's rate exceeds 0.4.  The
source emits the after-loss entries in dict-insertion order; this embedding
fixes the canonical order switch/repeat/random (no consumer reads the order). -/
def reactionPatterns (battles : List TurnRec) : List RPat :=
  if battles.length < 10 then []
  else
    (if 2 / 5 < reactionRate battles then [RPat.counters (reactionRate battles)]
     else [])
    ++ (if 2 / 5 < copyReactionRate battles then
          [RPat.copies (copyReactionRate battles)]
        else [])
    ++ (if 5 < totalLosses battles then
          (if 2 / 5 < (lossSwitchCounterCnt battles : ℚ) / (totalLosses battles : ℚ) then
            [RPat.lossSwitchCounter
              ((lossSwitchCounterCnt battles : ℚ) / (totalLosses battles : ℚ))]
           else [])
          ++ (if 2 / 5 < (lossRepeatCnt battles : ℚ) / (totalLosses battles : ℚ) then
                [RPat.lossRepeat
                  ((lossRepeatCnt battles : ℚ) / (totalLosses battles : ℚ))]
              else [])
          ++ (if 2 / 5 < (lossRandomCnt battles : ℚ) / (totalLosses battles : ℚ) then
                [RPat.lossRandom
                  ((lossRandomCnt battles : ℚ) / (totalLosses battles : ℚ))]
              else [])
        else [])

/-- The `adaptation_signs` entries (analyze_enemy_behavior.py, lines 143-172).
Their values come from per-period distributions, floating-point entropies and
win rates; the classification claims hold for every possible sign list, so
the signs are passed to the classifier as data. -/
inductive ASign
  | moveShare (m : Move) (increased : Bool)
  | becomingUnpredictable
  | becomingPredictable
  | improvingPerformance
  | decliningPerformance
  | dominantShift
deriving DecidableEq

/-- The `adaptation_type` labels assigned at lines 178-188. -/
inductive AdaptLabel
  | stable
  | reactive
  | defensive_randomization
  | learning
  | actively_adapting
  | gradually_shifting
deriving DecidableEq

/-- Result of `analyze_enemy_adaptation`: either the `insufficient_data`
status dict (carrying `total_battles`) or a classified label. -/
inductive AdaptResult
  | insufficient_data (total_battles : ℕ)
  | classified (label : AdaptLabel) (total_battles : ℕ)
deriving DecidableEq

/-- The `if`/`elif` classification chain (lines 178-188): `reactive` wins
whenever `detect_reaction_patterns` reported any pattern; the sign-membership
tests of the source are substring tests on `str(adaptation_signs)` and each
marker substring occurs only in its own entry, so they are membership tests. -/
def adaptationType (reactiveFlag : Bool) (signs : List ASign) : AdaptLabel :=
  if reactiveFlag then AdaptLabel.reactive
  else if ASign.becomingUnpredictable ∈ signs then AdaptLabel.defensive_randomization
  else if ASign.improvingPerformance ∈ signs ∧ 2 ≤ signs.length then AdaptLabel.learning
  else if 3 ≤ signs.length then AdaptLabel.actively_adapting
  else if 1 ≤ signs.length then AdaptLabel.gradually_shifting
  else AdaptLabel.stable

/-- Python `analyze_enemy_adaptation` (analyze_enemy_behavior.py, lines 95-103 and
174-199), restricted to status and label: below 15 battles the
`insufficient_data` status with the observed count; otherwise one label from
the priority chain, with `reactive = len(patterns) > 0`. -/
def analyze_enemy_adaptation (battles : List TurnRec) (signs : List ASign) :
    AdaptResult :=
  if battles.length < 15 then AdaptResult.insufficient_data battles.length
  else
    AdaptResult.classified
      (adaptationType (!(reactionPatterns battles).isEmpty) signs)
      battles.length

/-! ### Concrete inputs used by witnesses and counterexamples -/

/-- Five battles from a fixed all-rock opponent. -/
def fixedFive : List Battle := List.replicate 5 ⟨Move.rock, Move.rock⟩

/-- Fifteen battles from a fixed all-scissor opponent. -/
def fixedFifteen : List Battle := List.replicate 15 ⟨Move.paper, Move.scissor⟩

/-- Seventeen battles, sixteen rock and one paper from the enemy. -/
def biasedSeventeen : List Battle :=
  ⟨Move.rock, Move.paper⟩ :: List.replicate 16 ⟨Move.paper, Move.rock⟩

/-- Sixteen battles from a fixed all-rock opponent. -/
def fixedSixteen : List Battle := List.replicate 16 ⟨Move.scissor, Move.rock⟩

/-- Twenty battles in which every enemy move from the second on is the
counter of our previous move (our moves cycle rock, paper, scissor). -/
def counterTwenty : List Battle :=
  [⟨Move.rock, Move.rock⟩, ⟨Move.paper, Move.paper⟩, ⟨Move.scissor, Move.scissor⟩,
   ⟨Move.rock, Move.rock⟩, ⟨Move.paper, Move.paper⟩, ⟨Move.scissor, Move.scissor⟩,
   ⟨Move.rock, Move.rock⟩, ⟨Move.paper, Move.paper⟩, ⟨Move.scissor, Move.scissor⟩,
   ⟨Move.rock, Move.rock⟩, ⟨Move.paper, Move.paper⟩, ⟨Move.scissor, Move.scissor⟩,
   ⟨Move.rock, Move.rock⟩, ⟨Move.paper, Move.paper⟩, ⟨Move.scissor, Move.scissor⟩,
   ⟨Move.rock, Move.rock⟩, ⟨Move.paper, Move.paper⟩, ⟨Move.scissor, Move.scissor⟩,
   ⟨Move.rock, Move.rock⟩, ⟨Move.paper, Move.paper⟩]

/-- Ten moves whose most frequent transition (rock to rock, 4 of 9) sits on a
context with only 4 occurrences. -/
def lowSupportTen : List Move :=
  [Move.paper, Move.scissor, Move.paper, Move.scissor, Move.paper,
   Move.rock, Move.rock, Move.rock, Move.rock, Move.rock]

/-- Fifteen moves whose most frequent transition (rock to rock, 6 of 14,
conditional probability 6/9) is reported although the eligible context
scissor (5 occurrences) predicts rock with the higher conditional
probability 4/5. -/
def highCountLowCond : List Move :=
  [Move.scissor, Move.scissor, Move.rock, Move.rock, Move.rock,
   Move.scissor, Move.rock, Move.rock, Move.scissor, Move.rock,
   Move.rock, Move.scissor, Move.rock, Move.rock, Move.rock]

/-- A move list with a token outside the three-valued domain. -/
def invalidMoves : List String := [lizardTok, rockTok, rockTok]

/-- Ten rows, all ties: no qualifying after-loss or after-win turns. -/
def noLossTen : List TurnRec :=
  List.replicate 10 ⟨Move.rock, Move.paper, TurnResult.tie⟩

/-- Two rows with one enemy-loss transition. -/
def oneLossTwo : List TurnRec :=
  [⟨Move.rock, Move.paper, TurnResult.loss⟩, ⟨Move.rock, Move.paper, TurnResult.win⟩]

/-- Two rows for the reactive-rate bounds. -/
def twoRows : List TurnRec :=
  [⟨Move.rock, Move.paper, TurnResult.tie⟩, ⟨Move.rock, Move.rock, TurnResult.tie⟩]

/-- Sixteen rows in which the enemy always counters our previous move. -/
def counteringSixteen : List TurnRec :=
  ⟨Move.rock, Move.rock, TurnResult.tie⟩ ::
    List.replicate 15 ⟨Move.rock, Move.paper, TurnResult.tie⟩

/-- Numerator of the binomial tail over the common denominator `3^m`. -/
def binomTailNum (k m : ℕ) : ℕ :=
  Finset.sum (Finset.Icc k m) (fun i => m.choose i * 2 ^ (m - i))

/-! ## Helper lemmas -/

lemma binomTailP_eq (k m : ℕ) :
    binomTailP k m = (binomTailNum k m : ℚ) / 3 ^ m := by
  rw [binomTailP, binomTailNum]
  push_cast
  rw [Finset.sum_div]
  refine Finset.sum_congr rfl (fun i hi => ?_)
  have h3 : (3 : ℚ) ^ i * 3 ^ (m - i) = 3 ^ m := by
    rw [← pow_add]
    congr 1
    exact Nat.add_sub_cancel' (Finset.mem_Icc.mp hi).2
  field_simp
  ring_nf
  exact Or.inl h3.symm

lemma domBetter_left {battles : List Battle} {a b : Move}
    (h : countMove battles b < countMove battles a) :
    domBetter battles a b = a := by
  rw [domBetter, if_neg (by omega), if_pos h]

lemma domBetter_right {battles : List Battle} {a b : Move}
    (h : countMove battles a < countMove battles b) :
    domBetter battles a b = b := by
  rw [domBetter, if_pos h]

lemma domBetter_or (battles : List Battle) (a b : Move) :
    domBetter battles a b = a ∨ domBetter battles a b = b := by
  rw [domBetter]
  split_ifs <;> simp

lemma countMove_all {battles : List Battle} {m : Move}
    (h : ∀ b ∈ battles, b.enemy_move = m) :
    countMove battles m = battles.length := by
  rw [countMove]
  congr 1
  rw [List.filter_eq_self]
  intro a ha
  simpa using h a ha

lemma countMove_other {battles : List Battle} {m m' : Move}
    (h : ∀ b ∈ battles, b.enemy_move = m) (hne : m' ≠ m) :
    countMove battles m' = 0 := by
  rw [countMove, List.length_eq_zero, List.filter_eq_nil_iff]
  intro a ha
  simp only [decide_eq_true_eq, h a ha]
  exact fun e => hne e.symm

lemma dominantMove_all {battles : List Battle} {m : Move}
    (h : ∀ b ∈ battles, b.enemy_move = m) (hn : battles ≠ []) :
    dominantMove battles = m := by
  have hpos : 0 < battles.length := List.length_pos.mpr hn
  have hm : countMove battles m = battles.length := countMove_all h
  cases m with
  | rock =>
      have hp : countMove battles Move.paper = 0 := countMove_other h (by simp)
      have hs : countMove battles Move.scissor = 0 := countMove_other h (by simp)
      have e1 : domBetter battles Move.rock Move.paper = Move.rock :=
        domBetter_left (by omega)
      rw [dominantMove, e1, domBetter_left (by omega)]
  | paper =>
      have hr : countMove battles Move.rock = 0 := countMove_other h (by simp)
      have hs : countMove battles Move.scissor = 0 := countMove_other h (by simp)
      have e1 : domBetter battles Move.rock Move.paper = Move.paper :=
        domBetter_right (by omega)
      rw [dominantMove, e1, domBetter_left (by omega)]
  | scissor =>
      have hr : countMove battles Move.rock = 0 := countMove_other h (by simp)
      have hp : countMove battles Move.paper = 0 := countMove_other h (by simp)
      rcases domBetter_or battles Move.rock Move.paper with e1 | e1 <;>
        rw [dominantMove, e1, domBetter_right (by omega)]

lemma chiSquare_all {battles : List Battle} {m : Move}
    (h : ∀ b ∈ battles, b.enemy_move = m) (hn : battles ≠ []) :
    chiSquare battles = 2 * battles.length := by
  have hpos : 0 < battles.length := List.length_pos.mpr hn
  have hq : ((battles.length : ℚ)) ≠ 0 := by
    exact_mod_cast Nat.pos_iff_ne_zero.mp hpos
  have hm : countMove battles m = battles.length := countMove_all h
  cases m with
  | rock =>
      have hp : countMove battles Move.paper = 0 := countMove_other h (by simp)
      have hs : countMove battles Move.scissor = 0 := countMove_other h (by simp)
      rw [chiSquare, hm, hp, hs]
      push_cast
      field_simp
      ring
  | paper =>
      have hr : countMove battles Move.rock = 0 := countMove_other h (by simp)
      have hs : countMove battles Move.scissor = 0 := countMove_other h (by simp)
      rw [chiSquare, hm, hr, hs]
      push_cast
      field_simp
      ring
  | scissor =>
      have hr : countMove battles Move.rock = 0 := countMove_other h (by simp)
      have hp : countMove battles Move.paper = 0 := countMove_other h (by simp)
      rw [chiSquare, hm, hr, hp]
      push_cast
      field_simp
      ring

lemma dominantShare_all {battles : List Battle} {m : Move}
    (h : ∀ b ∈ battles, b.enemy_move = m) (hn : battles ≠ []) :
    dominantShare battles = 1 := by
  have hpos : 0 < battles.length := List.length_pos.mpr hn
  have hq : ((battles.length : ℚ)) ≠ 0 := by
    exact_mod_cast Nat.pos_iff_ne_zero.mp hpos
  rw [dominantShare, dominantMove_all h hn, countMove_all h, div_self hq]

/-! ## Claims about the gated detector (test_robust_detection.py) -/

/-- C1.  The gated detector accepts a Bias detection iff the battle list has
at least 15 samples, the chi-square statistic of the three-way move counts
against the uniform null exceeds 5.991, and the dominant move's observed
share exceeds 0.45; on acceptance the confidence is `min(0.9, share)`. -/
theorem bias_gate_iff (battles : List Battle) :
    ((∃ mv c k, detect_pattern battles = some (Detection.bias mv c k)) ↔
      (15 ≤ battles.length ∧ 5991 / 1000 < chiSquare battles
        ∧ 45 / 100 < dominantShare battles))
    ∧ (∀ mv c k, detect_pattern battles = some (Detection.bias mv c k) →
        c = min (9 / 10) (dominantShare battles) ∧ mv = dominantMove battles
          ∧ k = battles.length) := by
  rw [detect_pattern]
  split_ifs with h1 h2 h3 h4 h5
  · exact ⟨by simp; omega, by simp⟩
  · refine ⟨⟨fun _ => ⟨by omega, h2.1, h2.2⟩, fun _ => ⟨_, _, _, rfl⟩⟩, ?_⟩
    intro mv c k heq
    injection heq with heq
    injection heq with e1 e2 e3
    exact ⟨e2.symm, e1.symm, e3.symm⟩
  · refine ⟨⟨by simp, fun hr => absurd ⟨hr.2.1, hr.2.2⟩ h2⟩, by simp⟩
  · refine ⟨⟨?_, fun hr => absurd ⟨hr.2.1, hr.2.2⟩ h2⟩, ?_⟩
    · rintro ⟨mv, c, k, heq⟩
      exact absurd heq (by simp)
    · intro mv c k heq
      exact absurd heq (by simp)
  · refine ⟨⟨?_, fun hr => absurd ⟨hr.2.1, hr.2.2⟩ h2⟩, ?_⟩
    · rintro ⟨mv, c, k, heq⟩
      exact absurd heq (by simp)
    · intro mv c k heq
      exact absurd heq (by simp)
  · refine ⟨⟨by simp, fun hr => absurd ⟨hr.2.1, hr.2.2⟩ h2⟩, by simp⟩

/-- C1 witness: seventeen battles with sixteen enemy rocks are accepted as a
Bias detection. -/
theorem bias_gate_iff_witness :
    (∃ mv c k, detect_pattern biasedSeventeen = some (Detection.bias mv c k))
      ∧ (15 ≤ biasedSeventeen.length
        ∧ 5991 / 1000 < chiSquare biasedSeventeen
        ∧ 45 / 100 < dominantShare biasedSeventeen) := by
  have h1 : countMove biasedSeventeen Move.rock = 16 := by decide
  have h2 : countMove biasedSeventeen Move.paper = 1 := by decide
  have h3 : countMove biasedSeventeen Move.scissor = 0 := by decide
  have hl : biasedSeventeen.length = 17 := by decide
  have hd : dominantMove biasedSeventeen = Move.rock := by decide
  have hchi : 5991 / 1000 < chiSquare biasedSeventeen := by
    rw [chiSquare, h1, h2, h3, hl]
    norm_num
  have hsh : 45 / 100 < dominantShare biasedSeventeen := by
    rw [dominantShare, hd, h1, hl]
    norm_num
  have hr : 15 ≤ biasedSeventeen.length ∧ 5991 / 1000 < chiSquare biasedSeventeen
      ∧ 45 / 100 < dominantShare biasedSeventeen := ⟨by omega, hchi, hsh⟩
  exact ⟨(bias_gate_iff biasedSeventeen).1.mpr hr, hr⟩

/-- C2.  A Counter (resp. Copier) detection is returned only when the
observed transition count exceeds the expected count `(n-1)/3` and the
one-sided exact binomial test against the null rate 1/3 gives `p < 0.05`, in
which case the reported confidence is 0.7 and the rate is the raw rate; a
signal failing its test is never returned, and nothing is returned below 20
battles. -/
theorem binomial_gate_necessary (battles : List Battle) :
    (∀ r c k, detect_pattern battles = some (Detection.counter r c k) →
        20 ≤ battles.length
          ∧ ((battles.length - 1 : ℕ) : ℚ) / 3 < (counterTransCount battles : ℚ)
          ∧ binomTailP (counterTransCount battles) (battles.length - 1) < 1 / 20
          ∧ r = (counterTransCount battles : ℚ) / ((battles.length - 1 : ℕ) : ℚ)
          ∧ c = 7 / 10)
    ∧ (∀ r c k, detect_pattern battles = some (Detection.copier r c k) →
        20 ≤ battles.length
          ∧ ((battles.length - 1 : ℕ) : ℚ) / 3 < (copyTransCount battles : ℚ)
          ∧ binomTailP (copyTransCount battles) (battles.length - 1) < 1 / 20
          ∧ r = (copyTransCount battles : ℚ) / ((battles.length - 1 : ℕ) : ℚ)
          ∧ c = 7 / 10) := by
  rw [detect_pattern]
  split_ifs with h1 h2 h3 h4 h5 <;> constructor <;> intro r c k heq
  · exact absurd heq (by simp)
  · exact absurd heq (by simp)
  · exact absurd heq (by simp)
  · exact absurd heq (by simp)
  · exact absurd heq (by simp)
  · exact absurd heq (by simp)
  · injection heq with heq
    injection heq with e1 e2 e3
    exact ⟨by omega, h4.1, h4.2, e1.symm, e2.symm⟩
  · exact absurd heq (by simp)
  · exact absurd heq (by simp)
  · injection heq with heq
    injection heq with e1 e2 e3
    exact ⟨by omega, h5.1, h5.2, e1.symm, e2.symm⟩
  · exact absurd heq (by simp)
  · exact absurd heq (by simp)

/-- C2 witness: twenty battles whose nineteen transitions are all counters
are returned as a Counter detection, and the gate conditions hold there. -/
theorem binomial_gate_necessary_witness :
    20 ≤ counterTwenty.length
      ∧ ((counterTwenty.length - 1 : ℕ) : ℚ) / 3 < (counterTransCount counterTwenty : ℚ)
      ∧ binomTailP (counterTransCount counterTwenty) (counterTwenty.length - 1) < 1 / 20
      ∧ ((19 : ℚ) / 19)
          = (counterTransCount counterTwenty : ℚ) / ((counterTwenty.length - 1 : ℕ) : ℚ)
      ∧ ((7 : ℚ) / 10) = 7 / 10 := by
  have hcc : counterTransCount counterTwenty = 19 := by decide
  have hl : counterTwenty.length = 20 := by decide
  have h1 : countMove counterTwenty Move.rock = 7 := by decide
  have h2 : countMove counterTwenty Move.paper = 7 := by decide
  have h3 : countMove counterTwenty Move.scissor = 6 := by decide
  have hnum : binomTailNum 19 19 = 1 := by decide
  have hdet : detect_pattern counterTwenty
      = some (Detection.counter ((19 : ℚ) / 19) (7 / 10) 20) := by
    rw [detect_pattern, if_neg (by omega)]
    rw [if_neg ?hbias]
    case hbias =>
      rw [chiSquare, h1, h2, h3, hl]
      rintro ⟨hc, -⟩
      norm_num at hc
    rw [if_neg (by omega)]
    rw [if_pos ?hcnt]
    case hcnt =>
      constructor
      · rw [hcc, hl]
        norm_num
      · rw [hcc, hl]
        norm_num [binomTailP_eq, hnum]
    rw [hcc, hl]
    norm_num
  exact (binomial_gate_necessary counterTwenty).1 _ _ _ hdet

/-- C3 counterexample: five battles from a fixed all-rock opponent — the
claimed detection within at most five turns does not happen: the detector
returns nothing below its 15-sample minimum. -/
theorem fixed_five_no_detection :
    (∀ b ∈ fixedFive, b.enemy_move = Move.rock)
      ∧ fixedFive.length = 5
      ∧ detect_pattern fixedFive = none := by
  exact ⟨by decide, by decide, rfl⟩

/-- C3 amended: against a fixed single-move zero-noise opponent the detector
accepts a Bias detection as soon as it is consulted with at least 15 battles
(its configured minimum), with confidence exactly 0.9. -/
theorem fixed_pattern_detected_at_minimum (battles : List Battle) (m : Move)
    (h : ∀ b ∈ battles, b.enemy_move = m) (h15 : 15 ≤ battles.length) :
    detect_pattern battles = some (Detection.bias m (9 / 10) battles.length) := by
  have hn : battles ≠ [] := by
    intro he
    rw [he] at h15
    simp at h15
  have hchi : 5991 / 1000 < chiSquare battles := by
    rw [chiSquare_all h hn]
    have : (15 : ℚ) ≤ (battles.length : ℚ) := by exact_mod_cast h15
    linarith
  have hsh : 45 / 100 < dominantShare battles := by
    rw [dominantShare_all h hn]
    norm_num
  rw [detect_pattern, if_neg (by omega), if_pos ⟨hchi, hsh⟩,
    dominantMove_all h hn, dominantShare_all h hn]
  norm_num

/-- C3 witness: fifteen battles from a fixed all-scissor opponent are
detected at exactly the minimum with confidence 0.9. -/
theorem fixed_pattern_detected_at_minimum_witness :
    (∀ b ∈ fixedFifteen, b.enemy_move = Move.scissor)
      ∧ 15 ≤ fixedFifteen.length
      ∧ detect_pattern fixedFifteen
          = some (Detection.bias Move.scissor (9 / 10) fixedFifteen.length) :=
  ⟨by decide, by decide,
    fixed_pattern_detected_at_minimum fixedFifteen Move.scissor (by decide) (by decide)⟩

/-- C10.  The detector returns at most one detection per call, and the kinds
are checked in the fixed order bias, counter, copier: whenever the bias test
accepts, the Bias detection is what is returned, and when the bias test
fails but the counter test passes, the Counter detection is what is returned
— the later kinds cannot be reported for the same data. -/
theorem detection_priority (battles : List Battle) :
    (∀ d d', detect_pattern battles = some d →
        detect_pattern battles = some d' → d = d')
      ∧ (15 ≤ battles.length →
          5991 / 1000 < chiSquare battles → 45 / 100 < dominantShare battles →
          detect_pattern battles
            = some (Detection.bias (dominantMove battles)
                (min (9 / 10) (dominantShare battles)) battles.length))
      ∧ (15 ≤ battles.length →
          ¬(5991 / 1000 < chiSquare battles ∧ 45 / 100 < dominantShare battles) →
          20 ≤ battles.length →
          ((battles.length - 1 : ℕ) : ℚ) / 3 < (counterTransCount battles : ℚ) →
          binomTailP (counterTransCount battles) (battles.length - 1) < 1 / 20 →
          detect_pattern battles
            = some (Detection.counter
                ((counterTransCount battles : ℚ) / ((battles.length - 1 : ℕ) : ℚ))
                (7 / 10) battles.length)) := by
  refine ⟨fun d d' hd hd' => Option.some.inj (hd.symm.trans hd'),
    fun h15 hchi hsh => ?_, fun h15 hb h20 hcc hp => ?_⟩
  · rw [detect_pattern, if_neg (by omega), if_pos ⟨hchi, hsh⟩]
  · rw [detect_pattern, if_neg (by omega), if_neg hb, if_neg (by omega),
      if_pos ⟨hcc, hp⟩]

/-- C10 witness: sixteen all-rock battles pass the bias gate and the Bias
detection is what the call returns. -/
theorem detection_priority_witness :
    15 ≤ fixedSixteen.length
      ∧ detect_pattern fixedSixteen
          = some (Detection.bias (dominantMove fixedSixteen)
              (min (9 / 10) (dominantShare fixedSixteen)) fixedSixteen.length) := by
  have h1 : countMove fixedSixteen Move.rock = 16 := by decide
  have h2 : countMove fixedSixteen Move.paper = 0 := by decide
  have h3 : countMove fixedSixteen Move.scissor = 0 := by decide
  have hl : fixedSixteen.length = 16 := by decide
  have hd : dominantMove fixedSixteen = Move.rock := by decide
  refine ⟨by omega, (detection_priority fixedSixteen).2.1 (by omega) ?_ ?_⟩
  · rw [chiSquare, h1, h2, h3, hl]
    norm_num
  · rw [dominantShare, hd, h1, hl]
    norm_num

/-! ## Claims about the Markov detectors (test_markov_orders.py) -/

lemma tBetter_count_le (moves : List Move) (a b : Move × Move) :
    transCount moves a ≤ transCount moves (tBetter moves a b)
      ∧ transCount moves b ≤ transCount moves (tBetter moves a b) := by
  rw [tBetter]
  split_ifs <;> constructor <;> omega

lemma foldl_tBetter_ge (moves : List Move) :
    ∀ (l : List (Move × Move)) (a : Move × Move),
      transCount moves a ≤ transCount moves (l.foldl (tBetter moves) a)
        ∧ ∀ x ∈ l, transCount moves x ≤ transCount moves (l.foldl (tBetter moves) a) := by
  intro l
  induction l with
  | nil => simp
  | cons y ys ih =>
      intro a
      rw [List.foldl_cons]
      obtain ⟨h1, h2⟩ := ih (tBetter moves a y)
      refine ⟨le_trans (tBetter_count_le moves a y).1 h1, ?_⟩
      intro x hx
      rcases List.mem_cons.mp hx with hxy | hxs
      · subst hxy
        exact le_trans (tBetter_count_le moves a x).2 h1
      · exact h2 x hxs

lemma bestTransition_max (moves : List Move) (t : Move × Move) :
    transCount moves t ≤ transCount moves (bestTransition moves) := by
  have hmem : t ∈ allTrans := by
    rcases t with ⟨a, b⟩
    cases a <;> cases b <;> decide
  exact (foldl_tBetter_ge moves allTrans (Move.rock, Move.rock)).2 t hmem

lemma m3Step_inv (g : List (Ctx3 × Move)) (st : ℚ × Option (Ctx3 × Move))
    (p : Ctx3 × Move)
    (h : st = (0, none) ∨ ∃ q, st.2 = some q ∧ 5 ≤ ctxTotal g q.1
      ∧ st.1 = (patCount g q : ℚ) / (ctxTotal g q.1 : ℚ)) :
    m3Step g st p = (0, none)
      ∨ ∃ q, (m3Step g st p).2 = some q ∧ 5 ≤ ctxTotal g q.1
        ∧ (m3Step g st p).1 = (patCount g q : ℚ) / (ctxTotal g q.1 : ℚ) := by
  rw [m3Step]
  split_ifs with h1 h2
  · exact Or.inr ⟨p, rfl, h1, rfl⟩
  · exact h
  · exact h

lemma m3Best_inv (g : List (Ctx3 × Move)) :
    m3Best g = (0, none)
      ∨ ∃ q, (m3Best g).2 = some q ∧ 5 ≤ ctxTotal g q.1
        ∧ (m3Best g).1 = (patCount g q : ℚ) / (ctxTotal g q.1 : ℚ) := by
  rw [m3Best]
  have H : ∀ (l : List (Ctx3 × Move)) (st : ℚ × Option (Ctx3 × Move)),
      (st = (0, none) ∨ ∃ q, st.2 = some q ∧ 5 ≤ ctxTotal g q.1
        ∧ st.1 = (patCount g q : ℚ) / (ctxTotal g q.1 : ℚ)) →
      (l.foldl (m3Step g) st = (0, none)
        ∨ ∃ q, (l.foldl (m3Step g) st).2 = some q ∧ 5 ≤ ctxTotal g q.1
          ∧ (l.foldl (m3Step g) st).1 = (patCount g q : ℚ) / (ctxTotal g q.1 : ℚ)) := by
    intro l
    induction l with
    | nil => exact fun st h => h
    | cons y ys ih =>
        intro st h
        rw [List.foldl_cons]
        exact ih (m3Step g st y) (m3Step_inv g st y h)
  exact H (patKeys g) (0, none) (Or.inl rfl)

lemma markov1_low_eval :
    detect_markov_1 lowSupportTen = some ((Move.rock, Move.rock), 4, 9) := by
  have hb : bestTransition lowSupportTen = (Move.rock, Move.rock) := by decide
  have hc : transCount lowSupportTen (Move.rock, Move.rock) = 4 := by decide
  have hl : (mTransitions lowSupportTen).length = 9 := by decide
  rw [detect_markov_1, if_neg (by decide), if_pos ?hcond]
  case hcond =>
    rw [hb, hc, hl]
    norm_num
  rw [hb, hc, hl]

lemma markov1_high_eval :
    detect_markov_1 highCountLowCond = some ((Move.rock, Move.rock), 6, 14) := by
  have hb : bestTransition highCountLowCond = (Move.rock, Move.rock) := by decide
  have hc : transCount highCountLowCond (Move.rock, Move.rock) = 6 := by decide
  have hl : (mTransitions highCountLowCond).length = 14 := by decide
  rw [detect_markov_1, if_neg (by decide), if_pos ?hcond]
  case hcond =>
    rw [hb, hc, hl]
    norm_num
  rw [hb, hc, hl]

/-- C4 counterexample, two parts.  On `lowSupportTen` the order-1 detector
reports the rock-to-rock transition although its context occurs only 4 < 5
times, refuting the minimum-support clause.  On `highCountLowCond` it
reports rock-to-rock (conditional probability 6/9) although the context
scissor also meets the support minimum (5 occurrences) and predicts rock
with the strictly higher conditional probability 4/5, refuting the
highest-conditional-probability selection clause for order 1. -/
theorem markov1_low_support_reported :
    (detect_markov_1 lowSupportTen = some ((Move.rock, Move.rock), 4, 9)
      ∧ ctx1Total lowSupportTen Move.rock = 4
      ∧ ¬(5 ≤ ctx1Total lowSupportTen Move.rock))
    ∧ (detect_markov_1 highCountLowCond = some ((Move.rock, Move.rock), 6, 14)
      ∧ ctx1Total highCountLowCond Move.rock = 9
      ∧ ctx1Total highCountLowCond Move.scissor = 5
      ∧ transCount highCountLowCond (Move.scissor, Move.rock) = 4
      ∧ (transCount highCountLowCond (Move.rock, Move.rock) : ℚ)
            / (ctx1Total highCountLowCond Move.rock : ℚ)
          < (transCount highCountLowCond (Move.scissor, Move.rock) : ℚ)
            / (ctx1Total highCountLowCond Move.scissor : ℚ)) := by
  have hc1 : transCount highCountLowCond (Move.rock, Move.rock) = 6 := by decide
  have hc2 : transCount highCountLowCond (Move.scissor, Move.rock) = 4 := by decide
  have hx1 : ctx1Total highCountLowCond Move.rock = 9 := by decide
  have hx2 : ctx1Total highCountLowCond Move.scissor = 5 := by decide
  refine ⟨⟨markov1_low_eval, by decide, by decide⟩,
    markov1_high_eval, hx1, hx2, hc2, ?_⟩
  rw [hc1, hc2, hx1, hx2]
  norm_num

lemma transCount_le_ctx1 (moves : List Move) (t : Move × Move) :
    transCount moves t ≤ ctx1Total moves t.1 := by
  rw [transCount, ctx1Total]
  have H : ∀ l : List (Move × Move),
      (l.filter (fun u => u = t)).length ≤ (l.filter (fun u => u.1 = t.1)).length := by
    intro l
    induction l with
    | nil => simp
    | cons x xs ih =>
        by_cases hx : x = t
        · rw [List.filter_cons_of_pos (by simp [hx]),
            List.filter_cons_of_pos (by simp [hx]),
            List.length_cons, List.length_cons]
          omega
        · by_cases hx1 : x.1 = t.1
          · rw [List.filter_cons_of_neg (by simp [hx]),
              List.filter_cons_of_pos (by simp [hx1]), List.length_cons]
            omega
          · rw [List.filter_cons_of_neg (by simp [hx]),
              List.filter_cons_of_neg (by simp [hx1])]
            exact ih
  exact H (mTransitions moves)

lemma m3Step_fst_mono (g : List (Ctx3 × Move)) (st : ℚ × Option (Ctx3 × Move))
    (p : Ctx3 × Move) : st.1 ≤ (m3Step g st p).1 := by
  rw [m3Step]
  split_ifs with h1 h2
  · exact le_of_lt h2
  · exact le_refl _
  · exact le_refl _

lemma m3Step_self_le (g : List (Ctx3 × Move)) (st : ℚ × Option (Ctx3 × Move))
    (p : Ctx3 × Move) (h : 5 ≤ ctxTotal g p.1) :
    (patCount g p : ℚ) / (ctxTotal g p.1 : ℚ) ≤ (m3Step g st p).1 := by
  rw [m3Step, if_pos h]
  split_ifs with h2
  · exact le_refl _
  · exact le_of_not_lt h2

lemma foldl_m3_fst_mono (g : List (Ctx3 × Move)) :
    ∀ (l : List (Ctx3 × Move)) (st : ℚ × Option (Ctx3 × Move)),
      st.1 ≤ (l.foldl (m3Step g) st).1 := by
  intro l
  induction l with
  | nil => exact fun st => le_refl _
  | cons y ys ih =>
      intro st
      rw [List.foldl_cons]
      exact le_trans (m3Step_fst_mono g st y) (ih (m3Step g st y))

lemma foldl_m3_max (g : List (Ctx3 × Move)) :
    ∀ (l : List (Ctx3 × Move)) (st : ℚ × Option (Ctx3 × Move))
      (p : Ctx3 × Move), p ∈ l → 5 ≤ ctxTotal g p.1 →
      (patCount g p : ℚ) / (ctxTotal g p.1 : ℚ) ≤ (l.foldl (m3Step g) st).1 := by
  intro l
  induction l with
  | nil => simp
  | cons y ys ih =>
      intro st p hp hsup
      rw [List.foldl_cons]
      rcases List.mem_cons.mp hp with hpy | hps
      · subst hpy
        exact le_trans (m3Step_self_le g st p hsup) (foldl_m3_fst_mono g ys _)
      · exact ih (m3Step g st y) p hps hsup

lemma mem_firstDedupAux :
    ∀ (l acc : List (Ctx3 × Move)) (x : Ctx3 × Move),
      x ∈ firstDedupAux acc l ↔ x ∈ acc ∨ x ∈ l := by
  intro l
  induction l with
  | nil =>
      intro acc x
      rw [firstDedupAux]
      simp
  | cons y ys ih =>
      intro acc x
      rw [firstDedupAux]
      split_ifs with hy
      · rw [ih acc x]
        constructor
        · rintro (h | h)
          · exact Or.inl h
          · exact Or.inr (List.mem_cons_of_mem y h)
        · rintro (h | h)
          · exact Or.inl h
          · rcases List.mem_cons.mp h with hxy | hxs
            · exact Or.inl (hxy ▸ hy)
            · exact Or.inr hxs
      · rw [ih (y :: acc) x]
        simp only [List.mem_cons]
        tauto

lemma mem_patKeys (g : List (Ctx3 × Move)) (x : Ctx3 × Move) :
    x ∈ patKeys g ↔ x ∈ g := by
  rw [patKeys, mem_firstDedupAux]
  simp

lemma patCount_eq_zero_of_not_mem (g : List (Ctx3 × Move)) (p : Ctx3 × Move)
    (h : p ∉ g) : patCount g p = 0 := by
  rw [patCount, List.length_eq_zero, List.filter_eq_nil_iff]
  intro a ha
  simp only [decide_eq_true_eq]
  rintro rfl
  exact h ha

lemma m3Best_max (g : List (Ctx3 × Move)) (p : Ctx3 × Move)
    (hmem : p ∈ g) (hsup : 5 ≤ ctxTotal g p.1) :
    (patCount g p : ℚ) / (ctxTotal g p.1 : ℚ) ≤ (m3Best g).1 := by
  rw [m3Best]
  exact foldl_m3_max g (patKeys g) (0, none) p ((mem_patKeys g p).mpr hmem) hsup

/-- C4 amended: below 10 (resp. 30) moves the order-1 (resp. order-3)
detector reports nothing.  The order-3 gating is as the claim states: only a
4-gram whose context occurs at least 5 times is reported, only with the
highest conditional probability among all patterns meeting that support
minimum, and only when it exceeds 0.6.  The order-1 detector has no
minimum-support requirement and selects by raw transition count, not by
conditional probability: it reports the maximal-count transition exactly
when, given at least 10 moves, that count's share of all transitions
exceeds 0.4; on a report the reported transition's conditional probability
still necessarily exceeds 0.4. -/
theorem markov_detectors_amended (moves : List Move) :
    (moves.length < 10 → detect_markov_1 moves = none)
    ∧ (moves.length < 30 → detect_markov_3 moves = none)
    ∧ (∀ t c tot, detect_markov_1 moves = some (t, c, tot) →
        c = transCount moves t ∧ tot = (mTransitions moves).length
          ∧ 10 ≤ moves.length
          ∧ (2 / 5 : ℚ) < (c : ℚ) / (tot : ℚ)
          ∧ (∀ t', transCount moves t' ≤ c)
          ∧ (2 / 5 : ℚ) < (c : ℚ) / (ctx1Total moves t.1 : ℚ))
    ∧ (10 ≤ moves.length →
        (2 / 5 : ℚ) < (transCount moves (bestTransition moves) : ℚ)
            / ((mTransitions moves).length : ℚ) →
        detect_markov_1 moves
          = some (bestTransition moves, transCount moves (bestTransition moves),
              (mTransitions moves).length))
    ∧ (∀ p q, detect_markov_3 moves = some (p, q) →
        5 ≤ ctxTotal (grams3 moves) p.1
          ∧ q = (patCount (grams3 moves) p : ℚ) / (ctxTotal (grams3 moves) p.1 : ℚ)
          ∧ (3 / 5 : ℚ) < q
          ∧ ∀ p', 5 ≤ ctxTotal (grams3 moves) p'.1 →
              (patCount (grams3 moves) p' : ℚ)
                / (ctxTotal (grams3 moves) p'.1 : ℚ) ≤ q) := by
  refine ⟨?_, ?_, ?_, ?_, ?_⟩
  · intro h
    rw [detect_markov_1, if_pos h]
  · intro h
    rw [detect_markov_3, if_pos h]
  · intro t c tot heq
    rw [detect_markov_1] at heq
    split_ifs at heq with h1 h2
    · injection heq with heq
      obtain ⟨ht, hc, htot⟩ : bestTransition moves = t
          ∧ transCount moves (bestTransition moves) = c
          ∧ (mTransitions moves).length = tot := by
        simpa using heq
      subst ht
      subst hc
      subst htot
      refine ⟨rfl, rfl, by omega, h2, fun t' => bestTransition_max moves t', ?_⟩
      set t := bestTransition moves
      have hle1 : transCount moves t ≤ ctx1Total moves t.1 :=
        transCount_le_ctx1 moves t
      have hle2 : ctx1Total moves t.1 ≤ (mTransitions moves).length :=
        List.length_filter_le _ _
      have hcpos : 0 < transCount moves t := by
        by_contra hz
        have : transCount moves t = 0 := by omega
        rw [this] at h2
        norm_num at h2
      have hxpos : (0 : ℚ) < (ctx1Total moves t.1 : ℚ) := by
        exact_mod_cast lt_of_lt_of_le hcpos hle1
      have hmono : (transCount moves t : ℚ) / ((mTransitions moves).length : ℚ)
          ≤ (transCount moves t : ℚ) / (ctx1Total moves t.1 : ℚ) := by
        apply div_le_div_of_nonneg_left (by positivity) hxpos
        exact_mod_cast hle2
      linarith
  · intro h10 hshare
    rw [detect_markov_1, if_neg (by omega), if_pos hshare]
  · intro p q heq
    rw [detect_markov_3] at heq
    split_ifs at heq with h1 h2
    rcases m3Best_inv (grams3 moves) with hz | ⟨q', hsome, h5, hval⟩
    · rw [hz] at h2
      norm_num at h2
    · rw [hsome] at heq
      obtain ⟨hp, hq⟩ : q' = p ∧ (m3Best (grams3 moves)).1 = q := by
        simpa using heq
      subst hp
      subst hq
      refine ⟨h5, hval, h2, ?_⟩
      intro p' hsup
      by_cases hmem : p' ∈ grams3 moves
      · exact m3Best_max (grams3 moves) p' hmem hsup
      · rw [patCount_eq_zero_of_not_mem (grams3 moves) p' hmem]
        rw [Nat.cast_zero, zero_div]
        linarith

/-- C4 witness: the amended order-1 necessity clause instantiated at
`lowSupportTen`. -/
theorem markov_detectors_amended_witness :
    (4 : ℕ) = transCount lowSupportTen (Move.rock, Move.rock)
      ∧ (9 : ℕ) = (mTransitions lowSupportTen).length
      ∧ 10 ≤ lowSupportTen.length
      ∧ (2 / 5 : ℚ) < ((4 : ℕ) : ℚ) / ((9 : ℕ) : ℚ)
      ∧ (∀ t', transCount lowSupportTen t' ≤ 4)
      ∧ (2 / 5 : ℚ) < ((4 : ℕ) : ℚ)
          / (ctx1Total lowSupportTen Move.rock : ℚ) :=
  (markov_detectors_amended lowSupportTen).2.2.1 (Move.rock, Move.rock) 4 9
    markov1_low_eval

/-! ## Claims about the distribution analyzer -/

lemma filter_eq_partition {α : Type} [DecidableEq α] (a b c : α)
    (hab : a ≠ b) (hac : a ≠ c) (hbc : b ≠ c) (l : List α) :
    (l.filter (fun x => x = a)).length + (l.filter (fun x => x = b)).length
      + (l.filter (fun x => x = c)).length
      + (l.filter (fun x => ¬(x = a) ∧ ¬(x = b) ∧ ¬(x = c))).length
      = l.length := by
  induction l with
  | nil => simp
  | cons x xs ih =>
      by_cases h1 : x = a
      · have e1 := List.filter_cons_of_pos (p := fun y => decide (y = a))
          (l := xs) (a := x) (by simp [h1])
        have e2 := List.filter_cons_of_neg (p := fun y => decide (y = b))
          (l := xs) (a := x) (by simp [h1, hab])
        have e3 := List.filter_cons_of_neg (p := fun y => decide (y = c))
          (l := xs) (a := x) (by simp [h1, hac])
        have e4 := List.filter_cons_of_neg
          (p := fun y => decide (¬(y = a) ∧ ¬(y = b) ∧ ¬(y = c)))
          (l := xs) (a := x) (by simp [h1])
        rw [e1, e2, e3, e4, List.length_cons, List.length_cons]
        omega
      · by_cases h2 : x = b
        · have e1 := List.filter_cons_of_neg (p := fun y => decide (y = a))
            (l := xs) (a := x) (by simp [h1])
          have e2 := List.filter_cons_of_pos (p := fun y => decide (y = b))
            (l := xs) (a := x) (by simp [h2])
          have e3 := List.filter_cons_of_neg (p := fun y => decide (y = c))
            (l := xs) (a := x) (by simp [h2, hbc])
          have e4 := List.filter_cons_of_neg
            (p := fun y => decide (¬(y = a) ∧ ¬(y = b) ∧ ¬(y = c)))
            (l := xs) (a := x) (by simp [h2])
          rw [e1, e2, e3, e4, List.length_cons, List.length_cons]
          omega
        · by_cases h3 : x = c
          · have e1 := List.filter_cons_of_neg (p := fun y => decide (y = a))
              (l := xs) (a := x) (by simp [h1])
            have e2 := List.filter_cons_of_neg (p := fun y => decide (y = b))
              (l := xs) (a := x) (by simp [h2])
            have e3 := List.filter_cons_of_pos (p := fun y => decide (y = c))
              (l := xs) (a := x) (by simp [h3])
            have e4 := List.filter_cons_of_neg
              (p := fun y => decide (¬(y = a) ∧ ¬(y = b) ∧ ¬(y = c)))
              (l := xs) (a := x) (by simp [h3])
            rw [e1, e2, e3, e4, List.length_cons, List.length_cons]
            omega
          · have e1 := List.filter_cons_of_neg (p := fun y => decide (y = a))
              (l := xs) (a := x) (by simp [h1])
            have e2 := List.filter_cons_of_neg (p := fun y => decide (y = b))
              (l := xs) (a := x) (by simp [h2])
            have e3 := List.filter_cons_of_neg (p := fun y => decide (y = c))
              (l := xs) (a := x) (by simp [h3])
            have e4 := List.filter_cons_of_pos
              (p := fun y => decide (¬(y = a) ∧ ¬(y = b) ∧ ¬(y = c)))
              (l := xs) (a := x) (by simp [h1, h2, h3])
            rw [e1, e2, e3, e4, List.length_cons, List.length_cons]
            omega

/-- C5 counterexample: on the empty list the distribution functions return
0.333 (resp. 0.33) for rock — not exactly 1/3. -/
theorem empty_distribution_not_third :
    (get_distribution []).rock = 333 / 1000
      ∧ ¬((get_distribution []).rock = 1 / 3)
      ∧ (get_distribution_pat []).rock = 33 / 100
      ∧ ¬((get_distribution_pat []).rock = 1 / 3) := by
  have h1 : (get_distribution []).rock = 333 / 1000 := rfl
  have h2 : (get_distribution_pat []).rock = 33 / 100 := rfl
  refine ⟨h1, ?_, h2, ?_⟩
  · rw [h1]
    norm_num
  · rw [h2]
    norm_num

/-- C5 amended: on the empty list the distribution functions return the
fixed near-uniform dicts {0.333, 0.333, 0.334} (behavior analyzer) and
{0.33, 0.33, 0.34} (patterns analyzer), each summing exactly to 1; being
total functions they never fail. -/
theorem empty_distribution_value :
    get_distribution [] = ⟨333 / 1000, 333 / 1000, 334 / 1000⟩
      ∧ (get_distribution []).rock + (get_distribution []).paper
          + (get_distribution []).scissor = 1
      ∧ get_distribution_pat [] = ⟨33 / 100, 33 / 100, 34 / 100⟩
      ∧ (get_distribution_pat []).rock + (get_distribution_pat []).paper
          + (get_distribution_pat []).scissor = 1 := by
  have h1 : get_distribution [] = ⟨333 / 1000, 333 / 1000, 334 / 1000⟩ := rfl
  have h2 : get_distribution_pat [] = ⟨33 / 100, 33 / 100, 34 / 100⟩ := rfl
  refine ⟨h1, ?_, h2, ?_⟩
  · rw [h1]
    norm_num
  · rw [h2]
    norm_num

/-- C9 counterexample: a list containing the invalid token `lizard` does not
fail fast — the distribution function produces a dict, silently counting the
invalid token in the denominator only, so the result sums below 1. -/
theorem invalid_token_silently_ignored :
    get_distribution invalidMoves = ⟨2 / 3, 0, 0⟩
      ∧ (get_distribution invalidMoves).rock + (get_distribution invalidMoves).paper
          + (get_distribution invalidMoves).scissor < 1 := by
  have h1 : countTok invalidMoves rockTok = 2 := by decide
  have h2 : countTok invalidMoves paperTok = 0 := by decide
  have h3 : countTok invalidMoves scissorTok = 0 := by decide
  have hl : invalidMoves.length = 3 := by decide
  have hne : ¬(invalidMoves = []) := by decide
  have h : get_distribution invalidMoves = ⟨2 / 3, 0, 0⟩ := by
    rw [get_distribution, if_neg hne, h1, h2, h3, hl]
    norm_num
  refine ⟨h, ?_⟩
  rw [h]
  norm_num

/-- C9 amended: on a nonempty list the distribution function never raises;
each of the three valid tokens is counted against the full length, so the
entries sum to at most 1, and strictly below 1 whenever an out-of-domain
token is present (the invalid token is silently ignored, not an error). -/
theorem invalid_tokens_amended (moves : List String) (h : moves ≠ []) :
    get_distribution moves
        = ⟨(countTok moves rockTok : ℚ) / (moves.length : ℚ),
           (countTok moves paperTok : ℚ) / (moves.length : ℚ),
           (countTok moves scissorTok : ℚ) / (moves.length : ℚ)⟩
      ∧ (get_distribution moves).rock + (get_distribution moves).paper
          + (get_distribution moves).scissor ≤ 1
      ∧ ((∃ m ∈ moves, ¬(m = rockTok) ∧ ¬(m = paperTok) ∧ ¬(m = scissorTok)) →
          (get_distribution moves).rock + (get_distribution moves).paper
            + (get_distribution moves).scissor < 1) := by
  have heq : get_distribution moves
      = ⟨(countTok moves rockTok : ℚ) / (moves.length : ℚ),
         (countTok moves paperTok : ℚ) / (moves.length : ℚ),
         (countTok moves scissorTok : ℚ) / (moves.length : ℚ)⟩ := by
    rw [get_distribution, if_neg h]
  have hpos : 0 < moves.length := List.length_pos.mpr h
  have hq : (0 : ℚ) < (moves.length : ℚ) := by exact_mod_cast hpos
  have hpart := filter_eq_partition rockTok paperTok scissorTok
    (by decide) (by decide) (by decide) moves
  have hsum : (get_distribution moves).rock + (get_distribution moves).paper
      + (get_distribution moves).scissor
      = ((countTok moves rockTok + countTok moves paperTok
          + countTok moves scissorTok : ℕ) : ℚ) / (moves.length : ℚ) := by
    rw [heq]
    push_cast
    ring
  refine ⟨heq, ?_, ?_⟩
  · rw [hsum]
    rw [div_le_one hq]
    have hle : countTok moves rockTok + countTok moves paperTok
        + countTok moves scissorTok ≤ moves.length := by
      rw [countTok, countTok, countTok]
      omega
    exact_mod_cast hle
  · rintro ⟨x, hx, hx1, hx2, hx3⟩
    have hmem : x ∈ moves.filter
        (fun m => ¬(m = rockTok) ∧ ¬(m = paperTok) ∧ ¬(m = scissorTok)) :=
      List.mem_filter.mpr ⟨hx, by simp [hx1, hx2, hx3]⟩
    have hrest : 0 < (moves.filter
        (fun m => ¬(m = rockTok) ∧ ¬(m = paperTok) ∧ ¬(m = scissorTok))).length :=
      List.length_pos.mpr (List.ne_nil_of_mem hmem)
    have hlt : countTok moves rockTok + countTok moves paperTok
        + countTok moves scissorTok < moves.length := by
      rw [countTok, countTok, countTok]
      omega
    rw [hsum, div_lt_one hq]
    exact_mod_cast hlt

/-- C9 witness: the amended strict-sum clause instantiated at the list
containing `lizard`. -/
theorem invalid_tokens_amended_witness :
    invalidMoves ≠ []
      ∧ (get_distribution invalidMoves).rock + (get_distribution invalidMoves).paper
          + (get_distribution invalidMoves).scissor < 1 :=
  ⟨by decide,
    (invalid_tokens_amended invalidMoves (by decide)).2.2
      ⟨lizardTok, by decide, by decide, by decide, by decide⟩⟩

/-! ## Claims about the reactive transition analyzer
(deeper_reactive_analysis.py) -/

lemma reactiveCnt_partition_le (l : List (TurnRec × TurnRec)) :
    (l.filter (fun t => t.2.enemy_move = counterMap t.1.player_move)).length
      + (l.filter (fun t => ¬(t.2.enemy_move = counterMap t.1.player_move)
          ∧ t.2.enemy_move = t.1.player_move)).length
      + (l.filter (fun t => ¬(t.2.enemy_move = counterMap t.1.player_move)
          ∧ ¬(t.2.enemy_move = t.1.player_move)
          ∧ t.2.enemy_move = oppositeMap t.1.player_move)).length
      ≤ l.length := by
  induction l with
  | nil => simp
  | cons x xs ih =>
      by_cases h1 : x.2.enemy_move = counterMap x.1.player_move
      · have e1 := List.filter_cons_of_pos
          (p := fun t => decide (t.2.enemy_move = counterMap t.1.player_move))
          (l := xs) (a := x) (by simp [h1])
        have e2 := List.filter_cons_of_neg
          (p := fun t => decide (¬(t.2.enemy_move = counterMap t.1.player_move)
            ∧ t.2.enemy_move = t.1.player_move))
          (l := xs) (a := x) (by simp [h1])
        have e3 := List.filter_cons_of_neg
          (p := fun t => decide (¬(t.2.enemy_move = counterMap t.1.player_move)
            ∧ ¬(t.2.enemy_move = t.1.player_move)
            ∧ t.2.enemy_move = oppositeMap t.1.player_move))
          (l := xs) (a := x) (by simp [h1])
        rw [e1, e2, e3, List.length_cons, List.length_cons]
        omega
      · by_cases h2 : x.2.enemy_move = x.1.player_move
        · have e1 := List.filter_cons_of_neg
            (p := fun t => decide (t.2.enemy_move = counterMap t.1.player_move))
            (l := xs) (a := x) (by simp [h1])
          have e2 := List.filter_cons_of_pos
            (p := fun t => decide (¬(t.2.enemy_move = counterMap t.1.player_move)
              ∧ t.2.enemy_move = t.1.player_move))
            (l := xs) (a := x) (by simp only [decide_eq_true_eq]; exact ⟨h1, h2⟩)
          have e3 := List.filter_cons_of_neg
            (p := fun t => decide (¬(t.2.enemy_move = counterMap t.1.player_move)
              ∧ ¬(t.2.enemy_move = t.1.player_move)
              ∧ t.2.enemy_move = oppositeMap t.1.player_move))
            (l := xs) (a := x) (by simp [h2])
          rw [e1, e2, e3, List.length_cons, List.length_cons]
          omega
        · by_cases h3 : x.2.enemy_move = oppositeMap x.1.player_move
          · have e1 := List.filter_cons_of_neg
              (p := fun t => decide (t.2.enemy_move = counterMap t.1.player_move))
              (l := xs) (a := x) (by simp [h1])
            have e2 := List.filter_cons_of_neg
              (p := fun t => decide (¬(t.2.enemy_move = counterMap t.1.player_move)
                ∧ t.2.enemy_move = t.1.player_move))
              (l := xs) (a := x) (by simp [h2])
            have e3 := List.filter_cons_of_pos
              (p := fun t => decide (¬(t.2.enemy_move = counterMap t.1.player_move)
                ∧ ¬(t.2.enemy_move = t.1.player_move)
                ∧ t.2.enemy_move = oppositeMap t.1.player_move))
              (l := xs) (a := x) (by simp only [decide_eq_true_eq]; exact ⟨h1, h2, h3⟩)
            rw [e1, e2, e3, List.length_cons, List.length_cons]
            omega
          · have e1 := List.filter_cons_of_neg
              (p := fun t => decide (t.2.enemy_move = counterMap t.1.player_move))
              (l := xs) (a := x) (by simp [h1])
            have e2 := List.filter_cons_of_neg
              (p := fun t => decide (¬(t.2.enemy_move = counterMap t.1.player_move)
                ∧ t.2.enemy_move = t.1.player_move))
              (l := xs) (a := x) (by simp [h2])
            have e3 := List.filter_cons_of_neg
              (p := fun t => decide (¬(t.2.enemy_move = counterMap t.1.player_move)
                ∧ ¬(t.2.enemy_move = t.1.player_move)
                ∧ t.2.enemy_move = oppositeMap t.1.player_move))
              (l := xs) (a := x) (by simp [h3])
            rw [e1, e2, e3, List.length_cons]
            omega

/-- C8.  With at least 2 rows, the three reactive rates are each in [0, 1]
and sum to at most 1: the `elif` chain makes the three transition categories
disjoint over the same denominator. -/
theorem reactive_rates_bounded (battles : List TurnRec)
    (h : 2 ≤ battles.length) :
    (0 ≤ counter_rate battles ∧ counter_rate battles ≤ 1)
      ∧ (0 ≤ copy_rate battles ∧ copy_rate battles ≤ 1)
      ∧ (0 ≤ opposite_rate battles ∧ opposite_rate battles ≤ 1)
      ∧ counter_rate battles + copy_rate battles + opposite_rate battles ≤ 1 := by
  have hlen : (rTrans battles).length = battles.length - 1 := by
    rw [rTrans, List.length_zip, List.length_tail]
    omega
  have htt : totalTransitions battles = battles.length - 1 := rfl
  have hpos : 0 < totalTransitions battles := by omega
  have hq : (0 : ℚ) < (totalTransitions battles : ℚ) := by exact_mod_cast hpos
  have hc1 : counterCnt battles ≤ totalTransitions battles := by
    rw [counterCnt, htt, ← hlen]
    exact List.length_filter_le _ _
  have hc2 : copyCnt battles ≤ totalTransitions battles := by
    rw [copyCnt, htt, ← hlen]
    exact List.length_filter_le _ _
  have hc3 : oppositeCnt battles ≤ totalTransitions battles := by
    rw [oppositeCnt, htt, ← hlen]
    exact List.length_filter_le _ _
  have hsum : counterCnt battles + copyCnt battles + oppositeCnt battles
      ≤ totalTransitions battles := by
    rw [counterCnt, copyCnt, oppositeCnt, htt, ← hlen]
    exact reactiveCnt_partition_le (rTrans battles)
  rw [counter_rate, copy_rate, opposite_rate, if_pos hpos, if_pos hpos, if_pos hpos]
  refine ⟨⟨by positivity, ?_⟩, ⟨by positivity, ?_⟩, ⟨by positivity, ?_⟩, ?_⟩
  · rw [div_le_one hq]
    exact_mod_cast hc1
  · rw [div_le_one hq]
    exact_mod_cast hc2
  · rw [div_le_one hq]
    exact_mod_cast hc3
  · rw [div_add_div_same, div_add_div_same, div_le_one hq]
    exact_mod_cast hsum

/-- C8 witness: the bounds instantiated at a two-row list. -/
theorem reactive_rates_bounded_witness :
    2 ≤ twoRows.length
      ∧ ((0 ≤ counter_rate twoRows ∧ counter_rate twoRows ≤ 1)
        ∧ (0 ≤ copy_rate twoRows ∧ copy_rate twoRows ≤ 1)
        ∧ (0 ≤ opposite_rate twoRows ∧ opposite_rate twoRows ≤ 1)
        ∧ counter_rate twoRows + copy_rate twoRows + opposite_rate twoRows ≤ 1) :=
  ⟨by decide, reactive_rates_bounded twoRows (by decide)⟩

/-- C6 counterexample: ten all-tie rows — every qualifying count is 0, well
below the claimed minimum of 5, yet the outcome-conditioned rates are
reported as the value 0, not as undefined. -/
theorem outcome_rate_zero_not_undefined :
    totalLosses noLossTen = 0
      ∧ ¬(5 ≤ totalLosses noLossTen)
      ∧ repeat_loss_rate noLossTen = 0
      ∧ switch_loss_rate noLossTen = 0
      ∧ repeat_win_rate noLossTen = 0
      ∧ switch_win_rate noLossTen = 0 :=
  ⟨by decide, by decide, rfl, rfl, rfl, rfl⟩

/-- C6 amended: deeper_reactive_analysis computes the outcome-conditioned
rates with no minimum sample count of 5: whenever the qualifying count is
positive the count ratio is reported, and when the count is zero the rate is
reported as the value 0 rather than as undefined. -/
theorem outcome_rates_amended (battles : List TurnRec) :
    (totalLosses battles = 0 →
        repeat_loss_rate battles = 0 ∧ switch_loss_rate battles = 0)
      ∧ (0 < totalLosses battles →
          repeat_loss_rate battles
              = (repeatAfterLoss battles : ℚ) / (totalLosses battles : ℚ)
            ∧ switch_loss_rate battles
              = (switchAfterLoss battles : ℚ) / (totalLosses battles : ℚ))
      ∧ (totalWins battles = 0 →
          repeat_win_rate battles = 0 ∧ switch_win_rate battles = 0)
      ∧ (0 < totalWins battles →
          repeat_win_rate battles
              = (repeatAfterWin battles : ℚ) / (totalWins battles : ℚ)
            ∧ switch_win_rate battles
              = (switchAfterWin battles : ℚ) / (totalWins battles : ℚ)) := by
  refine ⟨fun h => ⟨?_, ?_⟩, fun h => ⟨?_, ?_⟩, fun h => ⟨?_, ?_⟩, fun h => ⟨?_, ?_⟩⟩
  · rw [repeat_loss_rate, if_neg (by omega)]
  · rw [switch_loss_rate, if_neg (by omega)]
  · rw [repeat_loss_rate, if_pos h]
  · rw [switch_loss_rate, if_pos h]
  · rw [repeat_win_rate, if_neg (by omega)]
  · rw [switch_win_rate, if_neg (by omega)]
  · rw [repeat_win_rate, if_pos h]
  · rw [switch_win_rate, if_pos h]

/-- C6 witness: a single qualifying loss transition (count 1) already yields
a reported ratio. -/
theorem outcome_rates_amended_witness :
    0 < totalLosses oneLossTwo
      ∧ repeat_loss_rate oneLossTwo
          = (repeatAfterLoss oneLossTwo : ℚ) / (totalLosses oneLossTwo : ℚ)
      ∧ switch_loss_rate oneLossTwo
          = (switchAfterLoss oneLossTwo : ℚ) / (totalLosses oneLossTwo : ℚ) :=
  ⟨by decide, ((outcome_rates_amended oneLossTwo).2.1 (by decide)).1,
    ((outcome_rates_amended oneLossTwo).2.1 (by decide)).2⟩

/-! ## Claims about the adaptation classifier (analyze_enemy_behavior.py) -/

/-- C7.  Below 15 rows the classifier returns the `insufficient_data` status
with the observed count and nothing else; from 15 rows on it returns exactly
one label, and the presence of a counter or copier reaction pattern forces
the label `reactive`, this rule being checked before every other one. -/
theorem adaptation_priority (battles : List TurnRec) (signs : List ASign) :
    (battles.length < 15 →
        analyze_enemy_adaptation battles signs
          = AdaptResult.insufficient_data battles.length)
      ∧ (15 ≤ battles.length →
          ∃ lab, analyze_enemy_adaptation battles signs
            = AdaptResult.classified lab battles.length)
      ∧ (15 ≤ battles.length →
          ((∃ q, RPat.counters q ∈ reactionPatterns battles)
            ∨ (∃ q, RPat.copies q ∈ reactionPatterns battles)) →
          analyze_enemy_adaptation battles signs
            = AdaptResult.classified AdaptLabel.reactive battles.length) := by
  refine ⟨fun h => ?_, fun h => ?_, fun h hmem => ?_⟩
  · rw [analyze_enemy_adaptation, if_pos h]
  · rw [analyze_enemy_adaptation, if_neg (by omega)]
    exact ⟨_, rfl⟩
  · have hne : reactionPatterns battles ≠ [] := by
      rcases hmem with ⟨q, hq⟩ | ⟨q, hq⟩ <;> exact List.ne_nil_of_mem hq
    have hflag : (!(reactionPatterns battles).isEmpty) = true := by
      simp [List.isEmpty_iff, hne]
    rw [analyze_enemy_adaptation, if_neg (by omega), adaptationType, if_pos hflag]

lemma reactionPatterns_counteringSixteen :
    reactionPatterns counteringSixteen = [RPat.counters 1] := by
  have hcnt : counterReactions counteringSixteen = 15 := by decide
  have hcpy : copyReactions counteringSixteen = 0 := by decide
  have hsub : counteringSixteen.length - 1 = 15 := by decide
  have hloss : totalLosses counteringSixteen = 0 := by decide
  have hr : reactionRate counteringSixteen = 1 := by
    rw [reactionRate, hcnt, hsub]
    norm_num
  have hcr : copyReactionRate counteringSixteen = 0 := by
    rw [copyReactionRate, hcpy, hsub]
    norm_num
  rw [reactionPatterns, if_neg (by decide), hr, hcr,
    if_pos (by norm_num), if_neg (by norm_num), if_neg (by rw [hloss]; norm_num)]
  simp

/-- C7 witness: sixteen rows in which the enemy always counters our previous
move are classified `reactive`. -/
theorem adaptation_priority_witness :
    15 ≤ counteringSixteen.length
      ∧ analyze_enemy_adaptation counteringSixteen []
          = AdaptResult.classified AdaptLabel.reactive counteringSixteen.length :=
  ⟨by decide,
    (adaptation_priority counteringSixteen []).2.2 (by decide)
      (Or.inl ⟨1, by rw [reactionPatterns_counteringSixteen]; exact List.mem_singleton.mpr rfl⟩)⟩

end RPS
